import Mathlib

/-!
Verification of the dpf-hcp-bridge-operator reconciliation engine.

Shallow embedding of the Go sources:
  internal/common (labels, constants, ResourceNeedsUpdate),
  internal/controller/metallb/metallb.go,
  internal/controller/hostedcluster/finalizer.go,
  internal/controller/hostedcluster/servicepublishing.go.

Stateful controller code is modelled as pure functions from inputs
(the parent object, the observed store state, and the outcomes of the
store calls the code makes) to a result recording the store operations
issued, the events emitted, the updated status conditions, and the
returned requeue/error value.
-/

namespace Bridge

/-! ## Constants from internal/common (constants.go) -/

def LabelDPFHCPBridgeName : String := "dpfhcpbridge.dpu.hcp.io/name"

def LabelDPFHCPBridgeNamespace : String := "dpfhcpbridge.dpu.hcp.io/namespace"

def OpenshiftOperatorsNamespace : String := "openshift-operators"

/-! ## Data model -/

/-- A label map, as Go's `map[string]string` obtained from `GetLabels()`:
`none` models a nil map, `some l` an association list of key/value pairs. -/
abbrev LabelMap : Type := Option (List (String × String))

/-- Go map lookup `labels[k]`: the pair `(value, ok)` collapses to `Option`. -/
def lookupLabel (l : List (String × String)) (k : String) : Option String :=
  match l with
  | [] => none
  | (k0, v0) :: rest => if k0 = k then some v0 else lookupLabel rest k

/-- Status condition, `metav1.Condition`. -/
structure Condition where
  ctype : String
  status : String
  reason : String
  message : String
  lastTransitionTime : Nat
  observedGeneration : Nat
deriving DecidableEq, Repr

/-- The DPFHCPBridge parent object: identity, generation, spec fields the
managed resources are built from, deletion/finalizer markers and status. -/
structure DPFHCPBridge where
  name : String
  nspace : String
  generation : Nat
  virtualIP : String
  exposeThroughLoadBalancer : Bool
  deletionTimestamp : Option Nat
  finalizers : List String
  conditions : List Condition
deriving DecidableEq, Repr

/-- Modelled from the spec: the parent "requests exposure via a
load-balancer"; the method body lives in api/v1alpha1 (not under src/) and
is modelled as reading the spec's load-balancer flag. -/
def DPFHCPBridge.shouldExposeThroughLoadBalancer (b : DPFHCPBridge) : Bool :=
  b.exposeThroughLoadBalancer

/-! ## Drift Detector: common.ResourceNeedsUpdate (generic over resources
with a `Spec` field; `Option` models the nil pointer). -/

/-- A Kubernetes object shape for the generic comparison: a `Spec` field of
type `σ` plus all remaining fields (metadata, status, ...) of type `μ`. -/
structure KObj (σ : Type) (μ : Type) where
  spec : σ
  rest : μ
deriving DecidableEq, Repr

/-- common.ResourceNeedsUpdate: nil guard first (`existing != desired`
when either pointer is nil), then deep equality of the `Spec` fields only. -/
def ResourceNeedsUpdate {σ μ : Type} [DecidableEq σ]
    (existing desired : Option (KObj σ μ)) : Bool :=
  match existing, desired with
  | none, none => false
  | none, some _ => true
  | some _, none => true
  | some e, some d => decide (e.spec ≠ d.spec)

/-! ## Ownership Guard: metallb.isOwnedByBridge -/

/-- metallb.isOwnedByBridge: nil label map is unowned; otherwise both
ownership labels must be present and equal the bridge's name/namespace. -/
def isOwnedByBridge (labels : LabelMap) (b : DPFHCPBridge) : Bool :=
  match labels with
  | none => false
  | some l =>
    match lookupLabel l LabelDPFHCPBridgeName,
          lookupLabel l LabelDPFHCPBridgeNamespace with
    | some bridgeName, some bridgeNamespace =>
      decide (bridgeName = b.name) && decide (bridgeNamespace = b.nspace)
    | some _, none => false
    | none, some _ => false
    | none, none => false

/-! ## apimachinery meta.SetStatusCondition (library consumed by both
controllers), modelled on a list of conditions; the `LastTransitionTime`
passed by this operator is always `metav1.Now()`, never zero, so the
zero-time fallback branch is omitted. Returns the updated list and the
`changed` flag. -/

/-- Merge a new condition into the existing entry of the same type:
`lastTransitionTime` moves only when `status` changes; `changed` is true
when status, reason, message or observedGeneration differ. -/
def mergeCondition (old newC : Condition) : Condition × Bool :=
  let statusChanged := decide (old.status ≠ newC.status)
  let changed := statusChanged || decide (old.reason ≠ newC.reason) ||
    decide (old.message ≠ newC.message) ||
    decide (old.observedGeneration ≠ newC.observedGeneration)
  ({ ctype := old.ctype
     status := newC.status
     reason := newC.reason
     message := newC.message
     lastTransitionTime :=
       if statusChanged then newC.lastTransitionTime
       else old.lastTransitionTime
     observedGeneration := newC.observedGeneration }, changed)

/-- meta.SetStatusCondition: update the first entry of the same type in
place, or append when absent; reports whether anything changed. -/
def SetStatusCondition (conds : List Condition) (newC : Condition) :
    List Condition × Bool :=
  match conds with
  | [] => ([newC], true)
  | c :: rest =>
    if c.ctype = newC.ctype then
      let m := mergeCondition c newC
      (m.1 :: rest, m.2)
    else
      let r := SetStatusCondition rest newC
      (c :: r.1, r.2)

/-- meta.FindStatusCondition: first condition of the given type. -/
def FindStatusCondition (conds : List Condition) (t : String) :
    Option Condition :=
  match conds with
  | [] => none
  | c :: rest => if c.ctype = t then some c else FindStatusCondition rest t

/-- A recorder event: `recorder.Event(obj, eventType, reason, message)`. -/
structure Event where
  etype : String
  reason : String
  message : String
deriving DecidableEq, Repr

/-! ## MetalLB manager (internal/controller/metallb/metallb.go) -/

def MetalLBConfigured : String := "MetalLBConfigured"

/-- Result of MetalLBManager.setCondition: the bridge with its in-memory
conditions, whether a status sub-resource write was issued, the events
emitted, and the returned error. -/
structure SetCondResult where
  bridge : DPFHCPBridge
  wrote : Bool
  events : List Event
  err : Option String
deriving Repr

/-- MetalLBManager.setCondition: build the MetalLBConfigured condition,
apply meta.SetStatusCondition, and only when it changed emit one event and
issue one status write. `updOk` is the outcome of `Status().Update`. -/
def setCondition (b : DPFHCPBridge) (status reason message : String)
    (now : Nat) (updOk : Bool) : SetCondResult :=
  let cond : Condition :=
    { ctype := MetalLBConfigured
      status := status
      reason := reason
      message := message
      lastTransitionTime := now
      observedGeneration := b.generation }
  let r := SetStatusCondition b.conditions cond
  if r.2 then
    let eventType := if status = "False" then "Warning" else "Normal"
    let eventReason :=
      if status = "False" then "MetalLBConfigurationFailed"
      else "MetalLBConfigured"
    let b2 := { b with conditions := r.1 }
    { bridge := b2
      wrote := true
      events := [{ etype := eventType, reason := eventReason, message := message }]
      err := if updOk then none
             else some "updating MetalLBConfigured condition" }
  else
    { bridge := b, wrote := false, events := [], err := none }

/-- IPAddressPoolSpec (metallb v1beta1): addresses, allocateTo namespaces,
autoAssign. -/
structure IPAddressPoolSpec where
  addresses : List String
  allocateToNamespaces : Option (List String)
  autoAssign : Option Bool
deriving DecidableEq, Repr

/-- L2AdvertisementSpec (metallb v1beta1): ipAddressPools. -/
structure L2AdvertisementSpec where
  ipAddressPools : List String
deriving DecidableEq, Repr

/-- Object metadata shared by the managed resources: identity, labels and
the store's version token (`resourceVersion`). -/
structure ResMeta where
  name : String
  nspace : String
  labels : LabelMap
  resourceVersion : String
deriving DecidableEq, Repr

abbrev IPAddressPool := KObj IPAddressPoolSpec ResMeta

abbrev L2Advertisement := KObj L2AdvertisementSpec ResMeta

/-- buildIPAddressPool: pool named after the bridge in openshift-operators,
ownership labels, /32 address from the virtual IP, allocation restricted to
the clusters-NAME namespace, autoAssign true. -/
def buildIPAddressPool (b : DPFHCPBridge) : IPAddressPool :=
  { spec :=
      { addresses := [b.virtualIP ++ "/32"]
        allocateToNamespaces := some ["clusters-" ++ b.name]
        autoAssign := some true }
    rest :=
      { name := b.name
        nspace := OpenshiftOperatorsNamespace
        labels := some [(LabelDPFHCPBridgeName, b.name),
                        (LabelDPFHCPBridgeNamespace, b.nspace)]
        resourceVersion := "" } }

/-- buildL2Advertisement: advertise-NAME in openshift-operators, ownership
labels, referencing the pool by the bridge's name. -/
def buildL2Advertisement (b : DPFHCPBridge) : L2Advertisement :=
  { spec := { ipAddressPools := [b.name] }
    rest :=
      { name := "advertise-" ++ b.name
        nspace := OpenshiftOperatorsNamespace
        labels := some [(LabelDPFHCPBridgeName, b.name),
                        (LabelDPFHCPBridgeNamespace, b.nspace)]
        resourceVersion := "" } }

/-- Outcome of a store Get at the deterministic key. -/
inductive GetRes (ρ : Type) where
  | notFound
  | found (r : ρ)
  | errored (msg : String)
deriving Repr

/-- A mutation issued to the store. -/
inductive StoreOp (ρ : Type) where
  | create (r : ρ)
  | update (r : ρ)
  | delete (r : ρ)
deriving DecidableEq, Repr

/-- Result of one ensure call: the mutations issued, the events emitted,
and the returned error. -/
structure EnsureResult (ρ : Type) where
  ops : List (StoreOp ρ)
  events : List Event
  err : Option String
deriving Repr

/-- ensureIPAddressPool: create when absent; on a found resource verify
ownership before anything else; drift-correct only the spec; emit the
drift event only after a successful update. `createOk`/`updateOk` are the
outcomes of the store calls. -/
def ensureIPAddressPool (b : DPFHCPBridge) (get : GetRes IPAddressPool)
    (createOk updateOk : Bool) : EnsureResult IPAddressPool :=
  let desired := buildIPAddressPool b
  match get with
  | .notFound =>
    { ops := [.create desired], events := []
      err := if createOk then none else some "creating IPAddressPool" }
  | .errored m =>
    { ops := [], events := [], err := some ("getting IPAddressPool: " ++ m) }
  | .found existing =>
    if !(isOwnedByBridge existing.rest.labels b) then
      { ops := [], events := []
        err := some ("IPAddressPool " ++ existing.rest.nspace ++ "/" ++
          existing.rest.name ++ " exists but is not owned by DPFHCPBridge " ++
          b.nspace ++ "/" ++ b.name ++ " (missing ownership labels)") }
    else if ResourceNeedsUpdate (some existing) (some desired) then
      let updated := { existing with spec := desired.spec }
      if updateOk then
        { ops := [.update updated]
          events := [{ etype := "Normal", reason := "MetalLBDriftCorrected"
                       message := "Corrected spec drift in IPAddressPool " ++
                         existing.rest.name }]
          err := none }
      else
        { ops := [.update updated], events := []
          err := some "updating IPAddressPool" }
    else
      { ops := [], events := [], err := none }

/-- ensureL2Advertisement: same protocol as the pool, for the
advertise-NAME resource. -/
def ensureL2Advertisement (b : DPFHCPBridge) (get : GetRes L2Advertisement)
    (createOk updateOk : Bool) : EnsureResult L2Advertisement :=
  let desired := buildL2Advertisement b
  match get with
  | .notFound =>
    { ops := [.create desired], events := []
      err := if createOk then none else some "creating L2Advertisement" }
  | .errored m =>
    { ops := [], events := [], err := some ("getting L2Advertisement: " ++ m) }
  | .found existing =>
    if !(isOwnedByBridge existing.rest.labels b) then
      { ops := [], events := []
        err := some ("L2Advertisement " ++ existing.rest.nspace ++ "/" ++
          existing.rest.name ++ " exists but is not owned by DPFHCPBridge " ++
          b.nspace ++ "/" ++ b.name ++ " (missing ownership labels)") }
    else if ResourceNeedsUpdate (some existing) (some desired) then
      let updated := { existing with spec := desired.spec }
      if updateOk then
        { ops := [.update updated]
          events := [{ etype := "Normal", reason := "MetalLBDriftCorrected"
                       message := "Corrected spec drift in L2Advertisement " ++
                         existing.rest.name }]
          err := none }
      else
        { ops := [.update updated], events := []
          err := some "updating L2Advertisement" }
    else
      { ops := [], events := [], err := none }

/-- Result of ConfigureMetalLB: the bridge with updated conditions, the
mutations per resource kind, all events, and the returned error
(the returned ctrl.Result is always empty, so it is not carried). -/
structure ConfigureResult where
  bridge : DPFHCPBridge
  poolOps : List (StoreOp IPAddressPool)
  l2Ops : List (StoreOp L2Advertisement)
  events : List Event
  err : Option String
deriving Repr

/-- ConfigureMetalLB: skip when load-balancer exposure is off; otherwise
ensure the pool, then the advertisement, setting a False condition on the
failing step, and finally set the MetalLBConfigured condition True with
reason MetalLBReady. -/
def configureMetalLB (b : DPFHCPBridge) (poolGet : GetRes IPAddressPool)
    (l2Get : GetRes L2Advertisement) (now : Nat)
    (poolCreateOk poolUpdateOk l2CreateOk l2UpdateOk condUpdOk : Bool) :
    ConfigureResult :=
  if !b.shouldExposeThroughLoadBalancer then
    { bridge := b, poolOps := [], l2Ops := [], events := [], err := none }
  else
    let rp := ensureIPAddressPool b poolGet poolCreateOk poolUpdateOk
    match rp.err with
    | some e =>
      let rc := setCondition b "False" "CreatingIPAddressPool"
        ("Failed to create/update IPAddressPool: " ++ e) now condUpdOk
      { bridge := rc.bridge, poolOps := rp.ops, l2Ops := []
        events := rp.events ++ rc.events, err := some e }
    | none =>
      let rl := ensureL2Advertisement b l2Get l2CreateOk l2UpdateOk
      match rl.err with
      | some e =>
        let rc := setCondition b "False" "L2AdvertisementFailed"
          ("Failed to create/update L2Advertisement: " ++ e) now condUpdOk
        { bridge := rc.bridge, poolOps := rp.ops, l2Ops := rl.ops
          events := rp.events ++ rl.events ++ rc.events, err := some e }
      | none =>
        let rc := setCondition b "True" "MetalLBReady"
          "MetalLB configured successfully" now condUpdOk
        { bridge := rc.bridge, poolOps := rp.ops, l2Ops := rl.ops
          events := rp.events ++ rl.events ++ rc.events, err := rc.err }

/-! ## Finalizer manager (internal/controller/hostedcluster/finalizer.go)

Time is modelled in seconds. -/

/-- DeletionTimeout: 30 minutes. -/
def DeletionTimeout : Nat := 30 * 60

/-- DeletionRequeueInterval: 10 seconds. -/
def DeletionRequeueInterval : Nat := 10

def HostedClusterCleanup : String := "HostedClusterCleanup"

/-- GetDeletionElapsedTime: 0 for a nil timestamp, otherwise now minus the
timestamp (truncated subtraction stands in for time.Since). -/
def GetDeletionElapsedTime (deletionTimestamp : Option Nat) (now : Nat) : Nat :=
  match deletionTimestamp with
  | none => 0
  | some t => now - t

/-- IsDeletionTimeoutExceeded: strictly greater than the timeout. -/
def IsDeletionTimeoutExceeded (deletionTimestamp : Option Nat) (now : Nat) :
    Bool :=
  GetDeletionElapsedTime deletionTimestamp now > DeletionTimeout

/-- Outcome of the Get for a dependency kind: NotFound, a no-match error
(CRD not installed), another error, or found with its deletion timestamp. -/
inductive DepGet where
  | notFound
  | noMatch
  | errored (msg : String)
  | found (deletionTs : Option Nat)
deriving DecidableEq, Repr

/-- Outcome of a store Delete call. -/
inductive DelOutcome where
  | ok
  | notFound
  | errored (msg : String)
deriving DecidableEq, Repr

/-- Result of deleteResource: whether the kind is confirmed absent,
whether a Delete was issued this invocation, and the returned error. -/
structure DeleteResResult where
  deleted : Bool
  deleteIssued : Bool
  err : Option String
deriving DecidableEq, Repr

/-- deleteResource: NotFound and no-match count as confirmed absent; a
found resource with no deletion timestamp gets one Delete (a NotFound race
counts as absent); one already terminating is left alone; either way the
kind is reported still present. -/
def deleteResource (get : DepGet) (del : DelOutcome) (kind : String) :
    DeleteResResult :=
  match get with
  | .notFound => { deleted := true, deleteIssued := false, err := none }
  | .noMatch => { deleted := true, deleteIssued := false, err := none }
  | .errored m =>
    { deleted := false, deleteIssued := false
      err := some ("failed to get " ++ kind ++ ": " ++ m) }
  | .found dts =>
    match dts with
    | none =>
      match del with
      | .ok => { deleted := false, deleteIssued := true, err := none }
      | .notFound => { deleted := true, deleteIssued := true, err := none }
      | .errored m =>
        { deleted := false, deleteIssued := true
          err := some ("failed to delete " ++ kind ++ ": " ++ m) }
    | some _ => { deleted := false, deleteIssued := false, err := none }

/-- Outcome of the Get for a derived secret. -/
inductive SecGet where
  | notFound
  | errored (msg : String)
  | present
deriving DecidableEq, Repr

/-- Result of deleteSecret: whether a Delete was issued and the error. -/
structure DelSecretResult where
  deleteIssued : Bool
  err : Option String
deriving DecidableEq, Repr

/-- deleteSecret: an absent secret is a no-op; a present one gets one
Delete, where a NotFound race is also success. -/
def deleteSecret (get : SecGet) (del : DelOutcome) (name : String) :
    DelSecretResult :=
  match get with
  | .notFound => { deleteIssued := false, err := none }
  | .errored m =>
    { deleteIssued := false
      err := some ("failed to get secret " ++ name ++ ": " ++ m) }
  | .present =>
    match del with
    | .ok => { deleteIssued := true, err := none }
    | .notFound => { deleteIssued := true, err := none }
    | .errored m =>
      { deleteIssued := true
        err := some ("failed to delete secret " ++ name ++ ": " ++ m) }

/-- One observable action of a teardown invocation, in program order. -/
inductive Action where
  | updateStatus
  | getDep (kind : String)
  | delDep (kind : String)
  | getSecret (name : String)
  | delSecret (name : String)
deriving DecidableEq, Repr

/-- The three derived secret names for a CR name. -/
def secretNames (crName : String) : List String :=
  [crName ++ "-pull-secret", crName ++ "-ssh-key",
   crName ++ "-etcd-encryption-key"]

/-- Loop body of deleteSecrets: process each name in order, aborting on
the first error; returns the actions performed and the error. -/
def deleteSecretsLoop (secGet : String → SecGet)
    (secDel : String → DelOutcome) :
    List String → List Action × Option String
  | [] => ([], none)
  | n :: rest =>
    let r := deleteSecret (secGet n) (secDel n) n
    let acts := Action.getSecret n ::
      (if r.deleteIssued then [Action.delSecret n] else [])
    match r.err with
    | some e => (acts, some e)
    | none =>
      let rr := deleteSecretsLoop secGet secDel rest
      (acts ++ rr.1, rr.2)

/-- deleteSecrets: delete the pull-secret, ssh-key and etcd-encryption-key
secrets in order. -/
def deleteSecrets (crName : String) (secGet : String → SecGet)
    (secDel : String → DelOutcome) : List Action × Option String :=
  deleteSecretsLoop secGet secDel (secretNames crName)

/-- Environment of one teardown invocation: the observed store state and
the outcomes of the store calls the code may make. -/
structure CleanupEnv where
  hcGet : DepGet
  hcDel : DelOutcome
  npGet : DepGet
  npDel : DelOutcome
  secGet : String → SecGet
  secDel : String → DelOutcome
  statusInProgressOk : Bool
  statusTimeoutOk : Bool
  statusSucceededOk : Bool

/-- Result of HandleFinalizerCleanup: the CR with its in-memory status,
the number of status sub-resource writes issued, the ordered action
trace, and the returned (requeueAfter, error). -/
structure CleanupResult where
  cr : DPFHCPBridge
  statusWrites : Nat
  trace : List Action
  requeueAfter : Option Nat
  err : Option String

/-- HandleFinalizerCleanup: set the in-progress condition (its status
write is unconditional), fail on a nil deletion timestamp, stop with a
terminal timeout condition and no error once elapsed strictly exceeds the
timeout, then drain HostedCluster, NodePool and the derived secrets in
order, requeueing after 10 seconds while a kind is still present. The
timeout-branch status write failure is only logged
(`env.statusTimeoutOk` does not change the outcome). -/
def handleFinalizerCleanup (cr : DPFHCPBridge) (now : Nat)
    (env : CleanupEnv) : CleanupResult :=
  let inProg : Condition :=
    { ctype := HostedClusterCleanup
      status := "False"
      reason := "CleanupInProgress"
      message := "Deleting HostedCluster and associated resources"
      lastTransitionTime := now
      observedGeneration := 0 }
  let s1 := SetStatusCondition cr.conditions inProg
  let cr1 := { cr with conditions := s1.1 }
  if !env.statusInProgressOk then
    { cr := cr1, statusWrites := 1, trace := [.updateStatus]
      requeueAfter := none
      err := some "failed to update cleanup condition to InProgress" }
  else
    match cr1.deletionTimestamp with
    | none =>
      { cr := cr1, statusWrites := 1, trace := [.updateStatus]
        requeueAfter := none, err := some "deletionTimestamp is nil" }
    | some t =>
      let elapsed := now - t
      if elapsed > DeletionTimeout then
        let timeoutCond : Condition :=
          { ctype := HostedClusterCleanup
            status := "False"
            reason := "CleanupTimeout"
            message := "HostedCluster deletion timeout exceeded after " ++
              toString elapsed
            lastTransitionTime := now
            observedGeneration := 0 }
        let s2 := SetStatusCondition cr1.conditions timeoutCond
        let cr2 := { cr1 with conditions := s2.1 }
        { cr := cr2, statusWrites := 2
          trace := [.updateStatus, .updateStatus]
          requeueAfter := none, err := none }
      else
        let hc := deleteResource env.hcGet env.hcDel "HostedCluster"
        let hcActs := Action.getDep "HostedCluster" ::
          (if hc.deleteIssued then [Action.delDep "HostedCluster"] else [])
        match hc.err with
        | some e =>
          { cr := cr1, statusWrites := 1, trace := .updateStatus :: hcActs
            requeueAfter := none, err := some e }
        | none =>
          if !hc.deleted then
            { cr := cr1, statusWrites := 1, trace := .updateStatus :: hcActs
              requeueAfter := some DeletionRequeueInterval, err := none }
          else
            let np := deleteResource env.npGet env.npDel "NodePool"
            let npActs := Action.getDep "NodePool" ::
              (if np.deleteIssued then [Action.delDep "NodePool"] else [])
            match np.err with
            | some e =>
              { cr := cr1, statusWrites := 1
                trace := .updateStatus :: hcActs ++ npActs
                requeueAfter := none, err := some e }
            | none =>
              if !np.deleted then
                { cr := cr1, statusWrites := 1
                  trace := .updateStatus :: hcActs ++ npActs
                  requeueAfter := some DeletionRequeueInterval, err := none }
              else
                let sec := deleteSecrets cr.name env.secGet env.secDel
                match sec.2 with
                | some e =>
                  { cr := cr1, statusWrites := 1
                    trace := .updateStatus :: hcActs ++ npActs ++ sec.1
                    requeueAfter := none, err := some e }
                | none =>
                  let succCond : Condition :=
                    { ctype := HostedClusterCleanup
                      status := "True"
                      reason := "CleanupSucceeded"
                      message := "HostedCluster and associated resources deleted successfully"
                      lastTransitionTime := now
                      observedGeneration := 0 }
                  let s3 := SetStatusCondition cr1.conditions succCond
                  let cr3 := { cr1 with conditions := s3.1 }
                  if !env.statusSucceededOk then
                    { cr := cr3, statusWrites := 2
                      trace := .updateStatus :: hcActs ++ npActs ++ sec.1 ++
                        [.updateStatus]
                      requeueAfter := none
                      err := some "failed to update cleanup condition to Succeeded" }
                  else
                    { cr := cr3, statusWrites := 2
                      trace := .updateStatus :: hcActs ++ npActs ++ sec.1 ++
                        [.updateStatus]
                      requeueAfter := none, err := none }

/-! ## Service publishing strategy
(internal/controller/hostedcluster/servicepublishing.go); hypershift
service types and strategy types are modelled by their string values. -/

/-- hyperv1.ServicePublishingStrategy: the strategy type and, for
NodePort, the node address. -/
structure ServicePublishingStrategy where
  stype : String
  nodePortAddress : Option String
deriving DecidableEq, Repr

/-- hyperv1.ServicePublishingStrategyMapping. -/
structure ServicePublishingStrategyMapping where
  service : String
  strategy : ServicePublishingStrategy
deriving DecidableEq, Repr

/-- Lexicographic comparison of character lists by code point, the order
Go's `<` uses on strings. -/
def charListLt : List Char → List Char → Bool
  | [], [] => false
  | [], _ :: _ => true
  | _ :: _, [] => false
  | c :: cs, d :: ds =>
    if c.val < d.val then true
    else if d.val < c.val then false
    else charListLt cs ds

/-- Go string comparison `x < y`. -/
def strLt (x y : String) : Bool := charListLt x.data y.data

/-- Insert into a list sorted by `less`, mirroring a comparison sort. -/
def insertByLess {α : Type} (less : α → α → Bool) (x : α) :
    List α → List α
  | [] => [x]
  | y :: ys => if less x y then x :: y :: ys else y :: insertByLess less x ys

/-- sort.Slice modelled as an insertion sort over the `less` function
(deterministic here because all keys are distinct). -/
def sortByLess {α : Type} (less : α → α → Bool) : List α → List α
  | [] => []
  | x :: xs => insertByLess less x (sortByLess less xs)

/-- BuildServicePublishingStrategy: LoadBalancer mode gives APIServer via
LoadBalancer and OAuthServer/Konnectivity/Ignition via Route; NodePort
mode gives all five services as NodePort on the node address, sorted by
service name. -/
def BuildServicePublishingStrategy (exposeThroughLoadBalancer : Bool)
    (nodeAddress : String) : List ServicePublishingStrategyMapping :=
  if exposeThroughLoadBalancer then
    [{ service := "APIServer", strategy := { stype := "LoadBalancer", nodePortAddress := none } },
     { service := "OAuthServer", strategy := { stype := "Route", nodePortAddress := none } },
     { service := "Konnectivity", strategy := { stype := "Route", nodePortAddress := none } },
     { service := "Ignition", strategy := { stype := "Route", nodePortAddress := none } }]
  else
    let services := ["APIServer", "OAuthServer", "OIDC", "Konnectivity",
      "Ignition"]
    let result := services.map (fun s =>
      { service := s
        strategy := { stype := "NodePort", nodePortAddress := some nodeAddress } })
    sortByLess (fun a b => strLt a.service b.service) result

/-! ## Helper lemmas about condition bookkeeping -/

/-- After SetStatusCondition, the entry found for the new condition's type
carries the new status and reason. -/
lemma find_after_set (conds : List Condition) (c : Condition) :
    (FindStatusCondition (SetStatusCondition conds c).1 c.ctype).map
      (fun x => (x.status, x.reason)) = some (c.status, c.reason) := by
  induction conds with
  | nil => simp [SetStatusCondition, FindStatusCondition]
  | cons d rest ih =>
    by_cases h : d.ctype = c.ctype
    · simp [SetStatusCondition, h, FindStatusCondition, mergeCondition]
    · simp [SetStatusCondition, h, FindStatusCondition, ih]

/-- A SetStatusCondition application that reports no change leaves the
condition list untouched. -/
lemma set_unchanged_eq (conds : List Condition) (c : Condition)
    (h : (SetStatusCondition conds c).2 = false) :
    (SetStatusCondition conds c).1 = conds := by
  induction conds with
  | nil => simp [SetStatusCondition] at h
  | cons d rest ih =>
    by_cases hd : d.ctype = c.ctype
    · simp only [SetStatusCondition, hd, if_pos] at h ⊢
      simp only [mergeCondition] at h ⊢
      simp only [Bool.or_eq_false_iff, decide_eq_false_iff_not, not_not] at h
      obtain ⟨⟨⟨hs, hr⟩, hm⟩, hg⟩ := h
      rw [← hs, ← hr, ← hm, ← hg]
      simp
    · simp only [SetStatusCondition, hd, if_neg, not_false_iff] at h ⊢
      simp [ih h]

/-- Re-applying SetStatusCondition with a condition equal in type, status,
reason, message and observedGeneration (the transition time may differ)
changes nothing. -/
lemma set_idem (conds : List Condition) (c c' : Condition)
    (ht : c'.ctype = c.ctype) (hs : c'.status = c.status)
    (hr : c'.reason = c.reason) (hm : c'.message = c.message)
    (hg : c'.observedGeneration = c.observedGeneration) :
    SetStatusCondition (SetStatusCondition conds c).1 c' =
      ((SetStatusCondition conds c).1, false) := by
  induction conds with
  | nil =>
    simp [SetStatusCondition, mergeCondition, ht, hs, hr, hm, hg]
  | cons d rest ih =>
    by_cases hd : d.ctype = c.ctype
    · simp [SetStatusCondition, hd, ht, mergeCondition, hs, hr, hm, hg]
    · have hd' : d.ctype ≠ c'.ctype := by rw [ht]; exact hd
      simp only [SetStatusCondition, hd, if_neg, not_false_iff]
      simp [SetStatusCondition, hd', ih]

/-- When no condition of the type is stored, SetStatusCondition appends
the new condition and reports a change. -/
lemma set_absent (conds : List Condition) (c : Condition)
    (h : FindStatusCondition conds c.ctype = none) :
    SetStatusCondition conds c = (conds ++ [c], true) := by
  induction conds with
  | nil => simp [SetStatusCondition]
  | cons d rest ih =>
    by_cases hd : d.ctype = c.ctype
    · simp [FindStatusCondition, hd] at h
    · simp only [FindStatusCondition, hd, if_neg, not_false_iff] at h
      simp [SetStatusCondition, hd, ih h]

/-- The MetalLB setCondition always leaves the MetalLBConfigured entry of
the bridge's in-memory conditions at the requested status and reason. -/
lemma find_after_setCondition (b : DPFHCPBridge) (s r m : String) (n : Nat)
    (u : Bool) :
    (FindStatusCondition (setCondition b s r m n u).bridge.conditions
      MetalLBConfigured).map (fun x => (x.status, x.reason)) = some (s, r) := by
  unfold setCondition
  set c : Condition :=
    { ctype := MetalLBConfigured, status := s, reason := r, message := m
      lastTransitionTime := n, observedGeneration := b.generation } with hc
  by_cases h2 : (SetStatusCondition b.conditions c).2
  · simpa [h2, hc] using find_after_set b.conditions c
  · have h2' : (SetStatusCondition b.conditions c).2 = false := by
      simpa using h2
    have heq := set_unchanged_eq b.conditions c h2'
    simp only [h2', Bool.false_eq_true, if_neg, not_false_iff]
    have := find_after_set b.conditions c
    rw [heq] at this
    simpa [hc] using this

/-! ## Concrete objects used by witnesses -/

/-- A concrete bridge requesting load-balancer exposure. -/
def wbridge : DPFHCPBridge :=
  { name := "p", nspace := "n", generation := 1, virtualIP := "10.0.0.9"
    exposeThroughLoadBalancer := true, deletionTimestamp := none
    finalizers := [], conditions := [] }

/-- A pool at the deterministic name with no ownership labels. -/
def wpoolForeign : IPAddressPool :=
  { spec := { addresses := ["1.2.3.4/32"], allocateToNamespaces := none
              autoAssign := none }
    rest := { name := "p", nspace := "openshift-operators", labels := none
              resourceVersion := "7" } }

/-- An advertisement at the deterministic name with no ownership labels. -/
def wadvForeign : L2Advertisement :=
  { spec := { ipAddressPools := ["p"] }
    rest := { name := "advertise-p", nspace := "openshift-operators"
              labels := none, resourceVersion := "7" } }

/-- Ownership labels matching wbridge. -/
def wownedLabels : LabelMap :=
  some [(LabelDPFHCPBridgeName, "p"), (LabelDPFHCPBridgeNamespace, "n")]

/-- An owned pool whose spec has drifted from the desired one. -/
def wpoolOwned : IPAddressPool :=
  { spec := { addresses := ["9.9.9.9/32"], allocateToNamespaces := none
              autoAssign := none }
    rest := { name := "p", nspace := "openshift-operators"
              labels := wownedLabels, resourceVersion := "7" } }

/-- An owned advertisement whose spec has drifted from the desired one. -/
def wadvOwned : L2Advertisement :=
  { spec := { ipAddressPools := ["other"] }
    rest := { name := "advertise-p", nspace := "openshift-operators"
              labels := wownedLabels, resourceVersion := "7" } }

/-! ## Claim theorems -/

/-- C5: ResourceNeedsUpdate returns true exactly when the Spec portions of
two present objects differ; nil versus non-nil (either side) is different
and does not panic; two nils are equal. The function is pure, so it
mutates neither input. -/
theorem c5_resource_needs_update {σ μ : Type} [DecidableEq σ]
    (e d : KObj σ μ) :
    (ResourceNeedsUpdate (some e) (some d) = true ↔ e.spec ≠ d.spec) ∧
    ResourceNeedsUpdate (some e) (none : Option (KObj σ μ)) = true ∧
    ResourceNeedsUpdate (none : Option (KObj σ μ)) (some d) = true ∧
    ResourceNeedsUpdate (none : Option (KObj σ μ)) none = false := by
  refine ⟨?_, rfl, rfl, rfl⟩
  simp [ResourceNeedsUpdate]

/-- C8: isOwnedByBridge is true iff both ownership labels are present and
equal the parent's name and namespace exactly; a nil label map is never
owned. The function is pure (no side effects). -/
theorem c8_ownership_guard (l : List (String × String)) (b : DPFHCPBridge) :
    (isOwnedByBridge (some l) b = true ↔
      lookupLabel l LabelDPFHCPBridgeName = some b.name ∧
      lookupLabel l LabelDPFHCPBridgeNamespace = some b.nspace) ∧
    isOwnedByBridge none b = false := by
  refine ⟨?_, rfl⟩
  unfold isOwnedByBridge
  cases h1 : lookupLabel l LabelDPFHCPBridgeName <;>
    cases h2 : lookupLabel l LabelDPFHCPBridgeNamespace <;>
    simp [h1, h2]

/-- C10: in LoadBalancer mode the builder returns exactly the four
mappings with APIServer via LoadBalancer and the rest via Route; in
NodePort mode it returns exactly the five services, each NodePort on the
given address, in strictly increasing service-name order. -/
theorem c10_service_publishing (a : String) :
    BuildServicePublishingStrategy true a =
      [{ service := "APIServer", strategy := { stype := "LoadBalancer", nodePortAddress := none } },
       { service := "OAuthServer", strategy := { stype := "Route", nodePortAddress := none } },
       { service := "Konnectivity", strategy := { stype := "Route", nodePortAddress := none } },
       { service := "Ignition", strategy := { stype := "Route", nodePortAddress := none } }] ∧
    BuildServicePublishingStrategy false a =
      [{ service := "APIServer", strategy := { stype := "NodePort", nodePortAddress := some a } },
       { service := "Ignition", strategy := { stype := "NodePort", nodePortAddress := some a } },
       { service := "Konnectivity", strategy := { stype := "NodePort", nodePortAddress := some a } },
       { service := "OAuthServer", strategy := { stype := "NodePort", nodePortAddress := some a } },
       { service := "OIDC", strategy := { stype := "NodePort", nodePortAddress := some a } }] ∧
    List.Chain' (fun x y => strLt x y = true)
      ((BuildServicePublishingStrategy false a).map (fun mp => mp.service)) := by
  have h2 : BuildServicePublishingStrategy false a =
      [{ service := "APIServer", strategy := { stype := "NodePort", nodePortAddress := some a } },
       { service := "Ignition", strategy := { stype := "NodePort", nodePortAddress := some a } },
       { service := "Konnectivity", strategy := { stype := "NodePort", nodePortAddress := some a } },
       { service := "OAuthServer", strategy := { stype := "NodePort", nodePortAddress := some a } },
       { service := "OIDC", strategy := { stype := "NodePort", nodePortAddress := some a } }] := rfl
  refine ⟨rfl, h2, ?_⟩
  rw [h2]
  simp only [List.map, List.chain'_cons, List.chain'_singleton, and_true]
  refine ⟨?_, ?_, ?_, ?_⟩ <;> decide

/-- C1: on a found resource that is not owned by the bridge, both ensure
operations issue no create, update or delete, emit no event, and return
the foreign-ownership error. -/
theorem c1_foreign_ownership (b : DPFHCPBridge) (pool : IPAddressPool)
    (adv : L2Advertisement) (cOk uOk cOk2 uOk2 : Bool)
    (h1 : isOwnedByBridge pool.rest.labels b = false)
    (h2 : isOwnedByBridge adv.rest.labels b = false) :
    ensureIPAddressPool b (GetRes.found pool) cOk uOk =
      { ops := [], events := []
        err := some ("IPAddressPool " ++ pool.rest.nspace ++ "/" ++
          pool.rest.name ++ " exists but is not owned by DPFHCPBridge " ++
          b.nspace ++ "/" ++ b.name ++ " (missing ownership labels)") } ∧
    ensureL2Advertisement b (GetRes.found adv) cOk2 uOk2 =
      { ops := [], events := []
        err := some ("L2Advertisement " ++ adv.rest.nspace ++ "/" ++
          adv.rest.name ++ " exists but is not owned by DPFHCPBridge " ++
          b.nspace ++ "/" ++ b.name ++ " (missing ownership labels)") } := by
  constructor
  · simp [ensureIPAddressPool, h1]
  · simp [ensureL2Advertisement, h2]

/-- C6: on a found, owned resource, the ensure operations update exactly
the Spec portion (all other fields, identity and version token included,
are those of the existing object), issue one update and one
drift-corrected event when the specs differ, and do nothing at all when
they already match. -/
theorem c6_drift_correction (b : DPFHCPBridge) (pool : IPAddressPool)
    (adv : L2Advertisement) (cOk cOk2 : Bool)
    (h1 : isOwnedByBridge pool.rest.labels b = true)
    (h2 : isOwnedByBridge adv.rest.labels b = true) :
    ensureIPAddressPool b (GetRes.found pool) cOk true =
      (if pool.spec = (buildIPAddressPool b).spec then
        { ops := [], events := [], err := none }
       else
        { ops := [StoreOp.update
            { spec := (buildIPAddressPool b).spec, rest := pool.rest }]
          events := [{ etype := "Normal", reason := "MetalLBDriftCorrected"
                       message := "Corrected spec drift in IPAddressPool " ++
                         pool.rest.name }]
          err := none }) ∧
    ensureL2Advertisement b (GetRes.found adv) cOk2 true =
      (if adv.spec = (buildL2Advertisement b).spec then
        { ops := [], events := [], err := none }
       else
        { ops := [StoreOp.update
            { spec := (buildL2Advertisement b).spec, rest := adv.rest }]
          events := [{ etype := "Normal", reason := "MetalLBDriftCorrected"
                       message := "Corrected spec drift in L2Advertisement " ++
                         adv.rest.name }]
          err := none }) := by
  constructor
  · by_cases hsp : pool.spec = (buildIPAddressPool b).spec <;>
      simp [ensureIPAddressPool, h1, ResourceNeedsUpdate, hsp]
  · by_cases hsp : adv.spec = (buildL2Advertisement b).spec <;>
      simp [ensureL2Advertisement, h2, ResourceNeedsUpdate, hsp]

/-- C1 witness: the foreign-ownership error path at a concrete input. -/
theorem c1_foreign_ownership_witness :
    isOwnedByBridge wpoolForeign.rest.labels wbridge = false ∧
    (ensureIPAddressPool wbridge (GetRes.found wpoolForeign) true true).ops = [] ∧
    (ensureL2Advertisement wbridge (GetRes.found wadvForeign) true true).ops = [] := by
  have h := c1_foreign_ownership wbridge wpoolForeign wadvForeign
    true true true true rfl rfl
  refine ⟨rfl, ?_, ?_⟩
  · rw [h.1]
  · rw [h.2]

/-- C6 witness: drift correction at a concrete input updates exactly the
spec, keeps the metadata and version token, and emits one event. -/
theorem c6_drift_correction_witness :
    isOwnedByBridge wpoolOwned.rest.labels wbridge = true ∧
    (ensureIPAddressPool wbridge (GetRes.found wpoolOwned) true true).ops =
      [StoreOp.update
        { spec := (buildIPAddressPool wbridge).spec, rest := wpoolOwned.rest }] ∧
    (ensureIPAddressPool wbridge (GetRes.found wpoolOwned) true true).events.length = 1 := by
  have h := c6_drift_correction wbridge wpoolOwned wadvOwned true true
    (by decide) (by decide)
  refine ⟨by decide, ?_, ?_⟩
  · rw [h.1, if_neg (by decide)]
  · rw [h.1, if_neg (by decide)]
    rfl

/-- The changed flag of SetStatusCondition ignores the new condition's
transition time: conditions agreeing on type, status, reason, message and
observedGeneration produce the same flag. -/
lemma set_snd_congr (conds : List Condition) (c c' : Condition)
    (ht : c'.ctype = c.ctype) (hs : c'.status = c.status)
    (hr : c'.reason = c.reason) (hm : c'.message = c.message)
    (hg : c'.observedGeneration = c.observedGeneration) :
    (SetStatusCondition conds c').2 = (SetStatusCondition conds c).2 := by
  induction conds with
  | nil => rfl
  | cons d rest ih =>
    by_cases hd : d.ctype = c.ctype
    · have hd' : d.ctype = c'.ctype := by rw [ht]; exact hd
      simp [SetStatusCondition, hd, hd', mergeCondition, hs, hr, hm, hg, ht]
    · have hd' : ¬d.ctype = c'.ctype := by rw [ht]; exact hd
      simp [SetStatusCondition, hd, hd', ih]

/-- A second MetalLB setCondition with the same status, reason and message
issues no write and no event, regardless of the first call's outcome. -/
lemma setCondition_idempotent (b : DPFHCPBridge) (s r m : String)
    (n n' : Nat) (u u' : Bool) :
    (setCondition (setCondition b s r m n u).bridge s r m n' u').wrote = false ∧
    (setCondition (setCondition b s r m n u).bridge s r m n' u').events = [] := by
  simp only [setCondition]
  by_cases h2 : (SetStatusCondition b.conditions
    { ctype := MetalLBConfigured, status := s, reason := r, message := m
      lastTransitionTime := n, observedGeneration := b.generation }).2
  · have hI := set_idem b.conditions
      { ctype := MetalLBConfigured, status := s, reason := r, message := m
        lastTransitionTime := n, observedGeneration := b.generation }
      { ctype := MetalLBConfigured, status := s, reason := r, message := m
        lastTransitionTime := n', observedGeneration := b.generation }
      rfl rfl rfl rfl rfl
    simp [h2, hI]
  · have h2' : (SetStatusCondition b.conditions
      { ctype := MetalLBConfigured, status := s, reason := r, message := m
        lastTransitionTime := n, observedGeneration := b.generation }).2 = false := by
      simpa using h2
    have hc := set_snd_congr b.conditions
      { ctype := MetalLBConfigured, status := s, reason := r, message := m
        lastTransitionTime := n, observedGeneration := b.generation }
      { ctype := MetalLBConfigured, status := s, reason := r, message := m
        lastTransitionTime := n', observedGeneration := b.generation }
      rfl rfl rfl rfl rfl
    rw [h2'] at hc
    simp [h2', hc]

/-- C4 (amended): the MetalLB condition-setting operation de-duplicates:
starting from a parent without the MetalLBConfigured condition, the first
call issues exactly one status write and one notification, and a repeat
call with the same (status, reason, message) issues none — exactly one
write and one notification in total. (The finalizer's cleanup-in-progress
status write, by contrast, is unconditional; see the counterexample.) -/
theorem c4_condition_dedup (b : DPFHCPBridge) (s r m : String) (n n' : Nat)
    (u u' : Bool)
    (habsent : FindStatusCondition b.conditions MetalLBConfigured = none) :
    (setCondition b s r m n u).wrote = true ∧
    (setCondition b s r m n u).events.length = 1 ∧
    (setCondition (setCondition b s r m n u).bridge s r m n' u').wrote = false ∧
    (setCondition (setCondition b s r m n u).bridge s r m n' u').events = [] := by
  have hA := set_absent b.conditions
    { ctype := MetalLBConfigured, status := s, reason := r, message := m
      lastTransitionTime := n, observedGeneration := b.generation } habsent
  have hIdem := setCondition_idempotent b s r m n n' u u'
  refine ⟨?_, ?_, hIdem.1, hIdem.2⟩ <;> simp [setCondition, hA]

/-- C4 witness: concrete two-call run with one write and one event total. -/
theorem c4_condition_dedup_witness :
    FindStatusCondition wbridge.conditions MetalLBConfigured = none ∧
    (setCondition wbridge "True" "MetalLBReady" "MetalLB configured successfully" 3 true).wrote = true ∧
    (setCondition (setCondition wbridge "True" "MetalLBReady" "MetalLB configured successfully" 3 true).bridge
      "True" "MetalLBReady" "MetalLB configured successfully" 8 true).wrote = false := by
  have h := c4_condition_dedup wbridge "True" "MetalLBReady"
    "MetalLB configured successfully" 3 8 true true rfl
  exact ⟨rfl, h.1, h.2.2.1⟩

/-- CR for the C4 counterexample: its stored HostedClusterCleanup
condition already equals the computed cleanup-in-progress condition in
status, reason and message. -/
def c4cr : DPFHCPBridge :=
  { name := "p", nspace := "n", generation := 1, virtualIP := "10.0.0.9"
    exposeThroughLoadBalancer := true, deletionTimestamp := some 0
    finalizers := ["f"]
    conditions := [{ ctype := "HostedClusterCleanup", status := "False"
                     reason := "CleanupInProgress"
                     message := "Deleting HostedCluster and associated resources"
                     lastTransitionTime := 3, observedGeneration := 0 }] }

/-- Environment for the C4 counterexample: HostedCluster still present. -/
def c4env : CleanupEnv :=
  { hcGet := .found none, hcDel := .ok, npGet := .notFound, npDel := .ok
    secGet := fun _ => .notFound, secDel := fun _ => .ok
    statusInProgressOk := true, statusTimeoutOk := true
    statusSucceededOk := true }

/-- C4 counterexample: a teardown invocation whose computed cleanup
condition is identical to the stored one (no difference in status, reason
or message — the condition list is left untouched) still issues a status
sub-resource write, so the engine does not write only on change. -/
theorem c4_counterexample :
    (handleFinalizerCleanup c4cr 5 c4env).cr.conditions = c4cr.conditions ∧
    (handleFinalizerCleanup c4cr 5 c4env).statusWrites = 1 := by
  exact ⟨by decide, by decide⟩

/-- setCondition returns no error when the status update succeeds. -/
lemma setCondition_err_none (b : DPFHCPBridge) (s r m : String) (n : Nat) :
    (setCondition b s r m n true).err = none := by
  unfold setCondition
  by_cases h : (SetStatusCondition b.conditions
    { ctype := MetalLBConfigured, status := s, reason := r, message := m
      lastTransitionTime := n, observedGeneration := b.generation }).2 <;>
    simp [h]

/-- C9 (amended): for parent P in namespace N with load-balancer exposure
and an empty store, ConfigureMetalLB creates the pool named P with
address virtualIP/32 and allocation restricted to clusters-P, creates the
advertisement advertise-P referencing pool P, both carrying ownership
labels (P, N), and leaves the MetalLBConfigured condition True with
reason MetalLBReady (the code's reason is MetalLBReady, not Ready). -/
theorem c9_end_to_end (b : DPFHCPBridge) (now : Nat)
    (hx : b.exposeThroughLoadBalancer = true) :
    (configureMetalLB b GetRes.notFound GetRes.notFound now
      true true true true true).poolOps =
      [StoreOp.create
        { spec := { addresses := [b.virtualIP ++ "/32"]
                    allocateToNamespaces := some ["clusters-" ++ b.name]
                    autoAssign := some true }
          rest := { name := b.name, nspace := OpenshiftOperatorsNamespace
                    labels := some [(LabelDPFHCPBridgeName, b.name),
                                    (LabelDPFHCPBridgeNamespace, b.nspace)]
                    resourceVersion := "" } }] ∧
    (configureMetalLB b GetRes.notFound GetRes.notFound now
      true true true true true).l2Ops =
      [StoreOp.create
        { spec := { ipAddressPools := [b.name] }
          rest := { name := "advertise-" ++ b.name
                    nspace := OpenshiftOperatorsNamespace
                    labels := some [(LabelDPFHCPBridgeName, b.name),
                                    (LabelDPFHCPBridgeNamespace, b.nspace)]
                    resourceVersion := "" } }] ∧
    (configureMetalLB b GetRes.notFound GetRes.notFound now
      true true true true true).err = none ∧
    (FindStatusCondition (configureMetalLB b GetRes.notFound GetRes.notFound
      now true true true true true).bridge.conditions MetalLBConfigured).map
      (fun c => (c.status, c.reason)) = some ("True", "MetalLBReady") := by
  have herr := setCondition_err_none b "True" "MetalLBReady"
    "MetalLB configured successfully" now
  have hfind := find_after_setCondition b "True" "MetalLBReady"
    "MetalLB configured successfully" now true
  refine ⟨?_, ?_, ?_, ?_⟩ <;>
    simp [configureMetalLB, DPFHCPBridge.shouldExposeThroughLoadBalancer, hx,
      ensureIPAddressPool, ensureL2Advertisement, buildIPAddressPool,
      buildL2Advertisement, herr, hfind]

/-- C9 witness: the end-to-end run at a concrete bridge. -/
theorem c9_end_to_end_witness :
    wbridge.exposeThroughLoadBalancer = true ∧
    (configureMetalLB wbridge GetRes.notFound GetRes.notFound 7
      true true true true true).err = none ∧
    (FindStatusCondition (configureMetalLB wbridge GetRes.notFound
      GetRes.notFound 7 true true true true true).bridge.conditions
      MetalLBConfigured).map (fun c => (c.status, c.reason)) =
      some ("True", "MetalLBReady") := by
  have h := c9_end_to_end wbridge 7 rfl
  exact ⟨rfl, h.2.2.1, h.2.2.2⟩

/-- C9 counterexample: the success condition's reason as computed by the
code on a concrete successful run is the string MetalLBReady, which is
not the claimed Ready. -/
theorem c9_counterexample :
    (FindStatusCondition (configureMetalLB wbridge GetRes.notFound
      GetRes.notFound 7 true true true true true).bridge.conditions
      MetalLBConfigured).map (fun c => c.reason) = some "MetalLBReady" ∧
    (FindStatusCondition (configureMetalLB wbridge GetRes.notFound
      GetRes.notFound 7 true true true true true).bridge.conditions
      MetalLBConfigured).map (fun c => c.reason) ≠ some "Ready" := by
  exact ⟨by decide, by decide⟩

/-- C2 (amended): once the elapsed time since the deletion marker
STRICTLY exceeds the 30-minute timeout, the invocation sets the terminal
CleanupTimeout condition, returns no error and no requeue, performs no
dependent access at all (trace is only the two status writes), and leaves
the finalizers untouched. At exactly T + timeout the branch is not taken
(see the counterexample). -/
theorem c2_teardown_timeout (cr : DPFHCPBridge) (now t : Nat)
    (env : CleanupEnv)
    (hdt : cr.deletionTimestamp = some t)
    (hok : env.statusInProgressOk = true)
    (hel : DeletionTimeout < now - t) :
    (handleFinalizerCleanup cr now env).err = none ∧
    (handleFinalizerCleanup cr now env).requeueAfter = none ∧
    (handleFinalizerCleanup cr now env).trace =
      [Action.updateStatus, Action.updateStatus] ∧
    (handleFinalizerCleanup cr now env).cr.finalizers = cr.finalizers ∧
    (FindStatusCondition (handleFinalizerCleanup cr now env).cr.conditions
      HostedClusterCleanup).map (fun c => (c.status, c.reason)) =
      some ("False", "CleanupTimeout") := by
  have hf := find_after_set (SetStatusCondition cr.conditions
      { ctype := HostedClusterCleanup, status := "False"
        reason := "CleanupInProgress"
        message := "Deleting HostedCluster and associated resources"
        lastTransitionTime := now, observedGeneration := 0 }).1
      { ctype := HostedClusterCleanup, status := "False"
        reason := "CleanupTimeout"
        message := "HostedCluster deletion timeout exceeded after " ++
          toString (now - t)
        lastTransitionTime := now, observedGeneration := 0 }
  refine ⟨?_, ?_, ?_, ?_, ?_⟩ <;>
    simp [handleFinalizerCleanup, hok, hdt, hel]
  simpa using hf

/-- CR used by the C2 witness and counterexample: deletion marker at 0. -/
def c2cr : DPFHCPBridge :=
  { name := "p", nspace := "n", generation := 1, virtualIP := "10.0.0.9"
    exposeThroughLoadBalancer := true, deletionTimestamp := some 0
    finalizers := ["dpf"], conditions := [] }

/-- Environment with both dependency kinds still present. -/
def c2envPresent : CleanupEnv :=
  { hcGet := .found none, hcDel := .ok, npGet := .found none, npDel := .ok
    secGet := fun _ => .present, secDel := fun _ => .ok
    statusInProgressOk := true, statusTimeoutOk := true
    statusSucceededOk := true }

/-- C2 witness: one second past the timeout the terminal branch runs. -/
theorem c2_teardown_timeout_witness :
    c2cr.deletionTimestamp = some 0 ∧
    DeletionTimeout < DeletionTimeout + 1 - 0 ∧
    (handleFinalizerCleanup c2cr (DeletionTimeout + 1) c2envPresent).err = none ∧
    (handleFinalizerCleanup c2cr (DeletionTimeout + 1) c2envPresent).requeueAfter = none ∧
    (handleFinalizerCleanup c2cr (DeletionTimeout + 1) c2envPresent).trace =
      [Action.updateStatus, Action.updateStatus] := by
  have h := c2_teardown_timeout c2cr (DeletionTimeout + 1) 0 c2envPresent
    rfl rfl (by decide)
  exact ⟨rfl, by decide, h.1, h.2.1, h.2.2.1⟩

/-- C2 counterexample: with dependents present at exactly T + timeout the
invocation does NOT take the timeout branch — it requeues after 10
seconds and the cleanup condition still reads CleanupInProgress; the
timeout predicate itself is false at exactly the timeout. -/
theorem c2_counterexample :
    IsDeletionTimeoutExceeded (some 0) DeletionTimeout = false ∧
    (handleFinalizerCleanup c2cr DeletionTimeout c2envPresent).requeueAfter =
      some DeletionRequeueInterval ∧
    (FindStatusCondition (handleFinalizerCleanup c2cr DeletionTimeout
      c2envPresent).cr.conditions HostedClusterCleanup).map
      (fun c => c.reason) = some "CleanupInProgress" := by
  exact ⟨by decide, by decide, by decide⟩

/-- Does the action touch the NodePool dependency kind? -/
def touchesNodePool (a : Action) : Bool :=
  match a with
  | .getDep k => k = "NodePool"
  | .delDep k => k = "NodePool"
  | _ => false

/-- Does the action touch a derived secret? -/
def touchesSecret (a : Action) : Bool :=
  match a with
  | .getSecret _ => true
  | .delSecret _ => true
  | _ => false

/-- C3: within the timeout, while the HostedCluster kind is still present
the invocation requeues after 10 seconds and never touches the NodePool
kind or any secret; once the HostedCluster is confirmed absent but the
NodePool is still present, it requeues after 10 seconds and never touches
a secret. -/
theorem c3_ordered_teardown (cr : DPFHCPBridge) (now t : Nat)
    (env : CleanupEnv)
    (hdt : cr.deletionTimestamp = some t)
    (hok : env.statusInProgressOk = true)
    (hel : now - t ≤ DeletionTimeout) :
    ((deleteResource env.hcGet env.hcDel "HostedCluster").err = none →
      (deleteResource env.hcGet env.hcDel "HostedCluster").deleted = false →
      (handleFinalizerCleanup cr now env).requeueAfter =
        some DeletionRequeueInterval ∧
      (handleFinalizerCleanup cr now env).err = none ∧
      ((handleFinalizerCleanup cr now env).trace.all
        (fun a => !(touchesNodePool a) && !(touchesSecret a))) = true) ∧
    ((deleteResource env.hcGet env.hcDel "HostedCluster").err = none →
      (deleteResource env.hcGet env.hcDel "HostedCluster").deleted = true →
      (deleteResource env.npGet env.npDel "NodePool").err = none →
      (deleteResource env.npGet env.npDel "NodePool").deleted = false →
      (handleFinalizerCleanup cr now env).requeueAfter =
        some DeletionRequeueInterval ∧
      (handleFinalizerCleanup cr now env).err = none ∧
      ((handleFinalizerCleanup cr now env).trace.all
        (fun a => !(touchesSecret a))) = true) := by
  have hnl : ¬ (DeletionTimeout < now - t) := Nat.not_lt.mpr hel
  constructor
  · intro h1 h2
    refine ⟨?_, ?_, ?_⟩ <;>
      simp [handleFinalizerCleanup, hok, hdt, hnl, h1, h2] <;>
      cases hdi : (deleteResource env.hcGet env.hcDel "HostedCluster").deleteIssued <;>
      simp [hdi, touchesNodePool, touchesSecret]
  · intro h1 h2 h3 h4
    refine ⟨?_, ?_, ?_⟩ <;>
      simp [handleFinalizerCleanup, hok, hdt, hnl, h1, h2, h3, h4] <;>
      cases hdi : (deleteResource env.hcGet env.hcDel "HostedCluster").deleteIssued <;>
      cases hdj : (deleteResource env.npGet env.npDel "NodePool").deleteIssued <;>
      simp [hdi, hdj, touchesNodePool, touchesSecret]

/-- Environment for the C3 witness, part 2: HostedCluster absent,
NodePool still present. -/
def c3envNp : CleanupEnv :=
  { hcGet := .notFound, hcDel := .ok, npGet := .found none, npDel := .ok
    secGet := fun _ => .present, secDel := fun _ => .ok
    statusInProgressOk := true, statusTimeoutOk := true
    statusSucceededOk := true }

/-- C3 witness: both still-present scenarios at concrete inputs. -/
theorem c3_ordered_teardown_witness :
    ((handleFinalizerCleanup c2cr 50 c2envPresent).requeueAfter =
      some DeletionRequeueInterval ∧
     (handleFinalizerCleanup c2cr 50 c2envPresent).err = none ∧
     ((handleFinalizerCleanup c2cr 50 c2envPresent).trace.all
       (fun a => !(touchesNodePool a) && !(touchesSecret a))) = true) ∧
    ((handleFinalizerCleanup c2cr 50 c3envNp).requeueAfter =
      some DeletionRequeueInterval ∧
     (handleFinalizerCleanup c2cr 50 c3envNp).err = none ∧
     ((handleFinalizerCleanup c2cr 50 c3envNp).trace.all
       (fun a => !(touchesSecret a))) = true) := by
  constructor
  · exact (c3_ordered_teardown c2cr 50 0 c2envPresent rfl rfl
      (by decide)).1 rfl rfl
  · exact (c3_ordered_teardown c2cr 50 0 c3envNp rfl rfl
      (by decide)).2 rfl rfl rfl rfl

/-- The secret-deletion loop succeeds and skips absent secrets whenever
every listed secret is either absent or present with a successful delete. -/
lemma deleteSecretsLoop_ok (secGet : String → SecGet)
    (secDel : String → DelOutcome) (names : List String)
    (h : ∀ nm ∈ names, secGet nm = SecGet.notFound ∨
      (secGet nm = SecGet.present ∧ secDel nm = DelOutcome.ok)) :
    (deleteSecretsLoop secGet secDel names).2 = none ∧
    ∀ nm, secGet nm = SecGet.notFound →
      Action.delSecret nm ∉ (deleteSecretsLoop secGet secDel names).1 := by
  induction names with
  | nil => simp [deleteSecretsLoop]
  | cons n rest ih =>
    obtain ⟨ih1, ih2⟩ := ih (fun nm hm => h nm (List.mem_cons_of_mem n hm))
    rcases h n (List.mem_cons_self n rest) with hn | ⟨hn, hd⟩
    · refine ⟨by simp [deleteSecretsLoop, deleteSecret, hn, ih1], ?_⟩
      intro nm hnm
      simp [deleteSecretsLoop, deleteSecret, hn]
      exact ih2 nm hnm
    · refine ⟨by simp [deleteSecretsLoop, deleteSecret, hn, hd, ih1], ?_⟩
      intro nm hnm
      have hne : nm ≠ n := by
        intro he
        rw [he, hn] at hnm
        cases hnm
      simp [deleteSecretsLoop, deleteSecret, hn, hd]
      exact ⟨hne, ih2 nm hnm⟩

/-- C7: a dependency Get answering NotFound or no-match counts as
confirmed absent with no error; and for any subset of the three derived
secrets already absent, secret cleanup succeeds, deletes nothing that is
absent, and (being a pure function of the observed store) behaves the
same on any repeat call, including after everything is gone. -/
theorem c7_absent_tolerance (kind : String) (del : DelOutcome)
    (crName : String) (secGet : String → SecGet)
    (secDel : String → DelOutcome)
    (habs : ∀ nm, secGet nm = SecGet.notFound ∨
      (secGet nm = SecGet.present ∧ secDel nm = DelOutcome.ok)) :
    deleteResource DepGet.notFound del kind =
      { deleted := true, deleteIssued := false, err := none } ∧
    deleteResource DepGet.noMatch del kind =
      { deleted := true, deleteIssued := false, err := none } ∧
    (deleteSecrets crName secGet secDel).2 = none ∧
    (∀ nm, secGet nm = SecGet.notFound →
      Action.delSecret nm ∉ (deleteSecrets crName secGet secDel).1) := by
  have h := deleteSecretsLoop_ok secGet secDel (secretNames crName)
    (fun nm _ => habs nm)
  exact ⟨rfl, rfl, h.1, h.2⟩

/-- Secret store for the C7 witness: the pull-secret is already absent,
the other two are present. -/
def wsecGet : String → SecGet := fun nm =>
  if nm = "p-pull-secret" then SecGet.notFound else SecGet.present

/-- Delete outcomes for the C7 witness: deletes succeed. -/
def wsecDel : String → DelOutcome := fun _ => DelOutcome.ok

/-- C7 witness: cleanup with one of the three secrets already absent
succeeds and does not delete the absent one. -/
theorem c7_absent_tolerance_witness :
    (deleteSecrets "p" wsecGet wsecDel).2 = none ∧
    Action.delSecret "p-pull-secret" ∉ (deleteSecrets "p" wsecGet wsecDel).1 := by
  have h := c7_absent_tolerance "HostedCluster" DelOutcome.ok "p" wsecGet
    wsecDel (fun nm => by
      by_cases hx : nm = "p-pull-secret" <;> simp [wsecGet, wsecDel, hx])
  exact ⟨h.2.2.1, h.2.2.2 "p-pull-secret" (by simp [wsecGet])⟩

end Bridge
